import Mathlib

/-!
Verification of the leave-request core of the workforce-management backend.

The definitions below are a shallow embedding of the JavaScript sources:
* `src/services/LeaveRequestService.js` (creation, status update, cancellation),
* the LeaveRequest repository (`findOverlapping`, `findByIdempotencyKey`,
  `updateStatus`, `delete`, `getEmployeeStats`),
* the queue processor (`calculateLeaveDuration`, `autoProcessLeaveRequest`,
  `handleQueueMessage`).

Dates and timestamps are modelled as integers in milliseconds since an
arbitrary epoch (a calendar day boundary is a multiple of
`MILLISECONDS_IN_DAY`); JS date parsing is modelled by `Option Int` (a value
that failed to parse is `none`).  The persistent store is a list of records
plus the autoincrement counter; the message broker is modelled by the list of
published events.  Fallible service operations return an `Except` paired with
the (possibly updated) store, mirroring the fact that every `throw` in the
source happens before any write.
-/

namespace Workforce

/-- Status enum from the constants module (values listed in the LeaveRequest
model definition: PENDING, APPROVED, REJECTED, PENDING_APPROVAL). -/
inductive LeaveStatus where
  | PENDING
  | PENDING_APPROVAL
  | APPROVED
  | REJECTED
deriving DecidableEq

/-- A row of the leave_requests table (fields used by the core logic). -/
structure LeaveRequest where
  id : Nat
  employeeId : Nat
  startDate : Int
  endDate : Int
  status : LeaveStatus
  idempotencyKey : Option String
  processedAt : Option Int
  createdAt : Int
deriving DecidableEq

/-- Messages published to the broker.  `leaveRequested` carries the payload
built in LeaveRequestService.createLeaveRequest; `leaveApproved` the payload
built in the queue processor. -/
inductive QueueEvent where
  | leaveRequested (id employeeId : Nat) (startDate endDate : Int)
      (status : LeaveStatus) (idempotencyKey : String) (timestamp : Int)
  | leaveApproved (id employeeId : Nat) (startDate endDate : Int)
      (processedAt : Int)
deriving DecidableEq

/-- The persistent store plus the stream of published events. -/
structure LeaveState where
  requests : List LeaveRequest
  nextId : Nat
  published : List QueueEvent
deriving DecidableEq

/-- MILLISECONDS_IN_DAY from the queue processor. -/
def MILLISECONDS_IN_DAY : Int := 1000 * 60 * 60 * 24

/-- Ceiling division of integers (JS Math.ceil(a / b) for integral a and
positive b). -/
def ceilDivInt (a b : Int) : Int :=
  (a + b - 1) / b

/-- Modelled from the spec: AUTO_APPROVE_DAYS_THRESHOLD lives in the constants
module (src/utils/constants.js), which is not among the provided sources; the
spec and the repository README state it defaults to 2 days and is externally
configurable, so the processor below takes the threshold as a parameter and
this is its default value. -/
def AUTO_APPROVE_DAYS_THRESHOLD : Int := 2

/-- Modelled from the spec: the routing key QUEUE_EVENTS.LEAVE_REQUESTED from
the missing constants module; the spec names the topic "leave.requested". -/
def LEAVE_REQUESTED_KEY : String := "leave.requested"

/-- Repository findById: LeaveRequest.findOne({ where: { id } }). -/
def findById (s : LeaveState) (id : Nat) : Option LeaveRequest :=
  s.requests.find? fun r => r.id == id

/-- Repository findByIdempotencyKey: findOne({ where: { idempotencyKey } }). -/
def findByIdempotencyKey (s : LeaveState) (key : String) : Option LeaveRequest :=
  s.requests.find? fun r => r.idempotencyKey == some key

/-- Status filter of the overlap query: status IN [APPROVED, PENDING_APPROVAL]. -/
def isActive : LeaveStatus → Bool
  | .APPROVED => true
  | .PENDING_APPROVAL => true
  | _ => false

/-- The Op.or condition of LeaveRequestRepository.findOverlapping on one row:
row startDate BETWEEN [startDate, endDate], or row endDate BETWEEN
[startDate, endDate], or (row startDate <= startDate AND row endDate >=
endDate). -/
def overlapMatch (startDate endDate rowStart rowEnd : Int) : Bool :=
  (decide (startDate ≤ rowStart) && decide (rowStart ≤ endDate)) ||
  (decide (startDate ≤ rowEnd) && decide (rowEnd ≤ endDate)) ||
  (decide (rowStart ≤ startDate) && decide (rowEnd ≥ endDate))

/-- Repository findOverlapping: all of the employee's rows with active status
matching the Op.or range condition, optionally excluding one id. -/
def findOverlapping (s : LeaveState) (employeeId : Nat)
    (startDate endDate : Int) (excludeId : Option Nat) : List LeaveRequest :=
  s.requests.filter fun r =>
    r.employeeId == employeeId &&
    isActive r.status &&
    overlapMatch startDate endDate r.startDate r.endDate &&
    (match excludeId with
     | some ex => r.id != ex
     | none => true)

/-- Repository updateStatus: UPDATE status, processedAt = now WHERE id. -/
def repoUpdateStatus (now : Int) (s : LeaveState) (id : Nat)
    (status : LeaveStatus) : LeaveState :=
  { s with requests := s.requests.map fun r =>
      if r.id = id then { r with status := status, processedAt := some now }
      else r }

/-- Repository delete: destroy({ where: { id } }). -/
def repoDelete (s : LeaveState) (id : Nat) : LeaveState :=
  { s with requests := s.requests.filter fun r => r.id != id }

/-- Repository exists: count({ where: { id } }) > 0. -/
def requestRowExists (s : LeaveState) (id : Nat) : Bool :=
  0 < s.requests.countP fun r => r.id == id

/-- Publishing a message appends it to the broker stream. -/
def publishEvent (s : LeaveState) (e : QueueEvent) : LeaveState :=
  { s with published := s.published ++ [e] }

/-- Result shape of getEmployeeStats. -/
structure LeaveStats where
  total : Nat
  approved : Nat
  pending : Nat
  rejected : Nat
  totalDays : Int
deriving DecidableEq

/-- The day count used inside getEmployeeStats:
Math.ceil((endDate - startDate) / MILLISECONDS_IN_DAY) + 1 (note: unlike the
queue processor's duration, it is not clamped to at least 1). -/
def statsDays (r : LeaveRequest) : Int :=
  ceilDivInt (r.endDate - r.startDate) MILLISECONDS_IN_DAY + 1

/-- The createdAt window filter of getEmployeeStats: rows of the employee with
createdAt BETWEEN [startOfYear, endOfYear] (both bounds inclusive). -/
def statsScope (employeeId : Nat) (startOfYear endOfYear : Int)
    (r : LeaveRequest) : Bool :=
  r.employeeId == employeeId &&
  decide (startOfYear ≤ r.createdAt) &&
  decide (r.createdAt ≤ endOfYear)

/-- One step of the requests.forEach accumulation in getEmployeeStats. -/
def statsStep (acc : LeaveStats) (r : LeaveRequest) : LeaveStats :=
  if r.status = .APPROVED then
    { acc with approved := acc.approved + 1,
               totalDays := acc.totalDays + statsDays r }
  else if r.status = .PENDING ∨ r.status = .PENDING_APPROVAL then
    { acc with pending := acc.pending + 1 }
  else if r.status = .REJECTED then
    { acc with rejected := acc.rejected + 1 }
  else acc

/-- Repository getEmployeeStats.  The source computes the window bounds as
new Date(year, 0, 1) and new Date(year, 11, 31) — the local-midnight instants
of Jan 1 and Dec 31 of the year; they are taken here as parameters
(startOfYear, endOfYear) so that theorems can relate them to calendar years. -/
def getEmployeeStats (s : LeaveState) (employeeId : Nat)
    (startOfYear endOfYear : Int) : LeaveStats :=
  let requests := s.requests.filter (statsScope employeeId startOfYear endOfYear)
  requests.foldl statsStep
    { total := requests.length, approved := 0, pending := 0, rejected := 0,
      totalDays := 0 }

/-- Input of LeaveRequestService.createLeaveRequest (dates already parsed;
the validation middleware guarantees ISO dates reach the service). -/
structure CreateInput where
  employeeId : Nat
  startDate : Int
  endDate : Int
  idempotencyKey : Option String
deriving DecidableEq

/-- The errors thrown by createLeaveRequest, in source order. -/
inductive CreateError where
  | EmployeeNotFound
  | InvalidDates
  | PastDate
  | Overlap
deriving DecidableEq

/-- Successful result of createLeaveRequest: the record plus the duplicate
flag (absent, i.e. false, on the fresh-creation path). -/
structure CreateResult where
  record : LeaveRequest
  duplicate : Bool
deriving DecidableEq

/-- Key resolution in createLeaveRequest:
leaveRequestData.idempotencyKey || crypto.randomBytes(16).toString('hex').
A provided empty string is falsy in JS and is replaced by the generated key. -/
def resolveIdempotencyKey (provided : Option String) (generatedKey : String) :
    String :=
  match provided with
  | some k => if k = "" then generatedKey else k
  | none => generatedKey

/-- The row inserted by the repository on the fresh-creation path:
{ ...leaveRequestData, status: PENDING, idempotencyKey }. -/
def createdRequest (s : LeaveState) (input : CreateInput) (key : String)
    (now : Int) : LeaveRequest :=
  { id := s.nextId
    employeeId := input.employeeId
    startDate := input.startDate
    endDate := input.endDate
    status := .PENDING
    idempotencyKey := some key
    processedAt := none
    createdAt := now }

/-- Repository create: insert the row, advancing the autoincrement counter. -/
def repoCreate (s : LeaveState) (r : LeaveRequest) : LeaveState :=
  { s with requests := r :: s.requests, nextId := s.nextId + 1 }

/-- LeaveRequestService.createLeaveRequest.  Parameters supply the collaborator
state the source reads ambiently: `employees` the ids for which
EmployeeRepository.exists is true, `todayStart` the value of
new Date().setHours(0,0,0,0), `now` the current timestamp (createdAt / event
timestamp), `generatedKey` the random key crypto would produce.  Every throw
happens before any write, so error branches return the store unchanged. -/
def createLeaveRequest (employees : List Nat) (todayStart now : Int)
    (generatedKey : String) (s : LeaveState) (input : CreateInput) :
    Except CreateError CreateResult × LeaveState :=
  if employees.contains input.employeeId = false then
    (.error .EmployeeNotFound, s)
  else if input.endDate < input.startDate then
    (.error .InvalidDates, s)
  else if input.startDate < todayStart then
    (.error .PastDate, s)
  else if 0 < (findOverlapping s input.employeeId input.startDate
                input.endDate none).length then
    (.error .Overlap, s)
  else
    let key := resolveIdempotencyKey input.idempotencyKey generatedKey
    match findByIdempotencyKey s key with
    | some existing => (.ok { record := existing, duplicate := true }, s)
    | none =>
      let newRequest := createdRequest s input key now
      let created := repoCreate s newRequest
      let afterPublish := publishEvent created
        (.leaveRequested newRequest.id newRequest.employeeId
          newRequest.startDate newRequest.endDate newRequest.status key now)
      (.ok { record := (findById afterPublish newRequest.id).getD newRequest,
             duplicate := false }, afterPublish)

/-- Projection: the duplicate flag of a successful creation result. -/
def okDuplicate : Except CreateError CreateResult → Option Bool
  | .ok res => some res.duplicate
  | .error _ => none

/-- Projection: the record id of a successful creation result. -/
def okRecordId : Except CreateError CreateResult → Option Nat
  | .ok res => some res.record.id
  | .error _ => none

/-- Error of updateLeaveRequestStatus (the invalid-status throw cannot arise
here because the embedded status argument is already a member of the enum). -/
inductive UpdateError where
  | NotFound
deriving DecidableEq

/-- LeaveRequestService.updateLeaveRequestStatus: existence check, update,
re-fetch. -/
def updateLeaveRequestStatus (now : Int) (s : LeaveState) (id : Nat)
    (status : LeaveStatus) : Except UpdateError (Option LeaveRequest) × LeaveState :=
  if requestRowExists s id = false then
    (.error .NotFound, s)
  else
    let s1 := repoUpdateStatus now s id status
    (.ok (findById s1 id), s1)

/-- The errors thrown by cancelLeaveRequest, in source order. -/
inductive CancelError where
  | NotFound
  | Unauthorized
  | InvalidState
deriving DecidableEq

/-- LeaveRequestService.cancelLeaveRequest: fetch, ownership check,
REJECTED-status check, hard delete. -/
def cancelLeaveRequest (s : LeaveState) (id : Nat) (employeeId : Nat) :
    Except CancelError Unit × LeaveState :=
  match findById s id with
  | none => (.error .NotFound, s)
  | some leaveRequest =>
    if leaveRequest.employeeId ≠ employeeId then
      (.error .Unauthorized, s)
    else if leaveRequest.status = .REJECTED then
      (.error .InvalidState, s)
    else
      (.ok (), repoDelete s id)

/-- calculateLeaveDuration from the queue processor.  The two arguments are
the results of new Date(startDate) / new Date(endDate): `none` models a date
whose getTime() is NaN. -/
def calculateLeaveDuration (start end_ : Option Int) : Option Int :=
  match start, end_ with
  | some s, some e =>
      some (max 1 (ceilDivInt (e - s) MILLISECONDS_IN_DAY + 1))
  | _, _ => none

/-- autoProcessLeaveRequest from the queue processor.  The Option argument
models the `!leaveRequest` null guard; the stored DATEONLY dates always parse,
so they are passed to the duration calculation as `some`.  The `!duration`
falsiness check coincides with the `none` case because the computed duration
is clamped to at least 1. -/
def autoProcessLeaveRequest (threshold now : Int) (s : LeaveState)
    (req : Option LeaveRequest) : LeaveState :=
  match req with
  | none => s
  | some leaveRequest =>
    if leaveRequest.status ≠ .PENDING then s
    else
      match calculateLeaveDuration (some leaveRequest.startDate)
              (some leaveRequest.endDate) with
      | none => s
      | some duration =>
        let nextStatus := if duration ≤ threshold then LeaveStatus.APPROVED
                          else LeaveStatus.PENDING_APPROVAL
        if nextStatus = leaveRequest.status then s
        else
          let s1 := repoUpdateStatus now s leaveRequest.id nextStatus
          if nextStatus = .APPROVED then
            publishEvent s1 (.leaveApproved leaveRequest.id
              leaveRequest.employeeId leaveRequest.startDate
              leaveRequest.endDate now)
          else s1

/-- handleQueueMessage from the queue processor: routing-key filter, payload id
presence check (`!leaveRequestId`, which is also true for the falsy id 0),
re-fetch from the store, then auto-processing. -/
def handleQueueMessage (threshold now : Int) (s : LeaveState)
    (routingKey : String) (payloadId : Option Nat) : LeaveState :=
  if routingKey ≠ LEAVE_REQUESTED_KEY then s
  else
    match payloadId with
    | none => s
    | some id =>
      if id = 0 then s
      else
        match findById s id with
        | none => s
        | some leaveRequest =>
          autoProcessLeaveRequest threshold now s (some leaveRequest)

/-- Modelled from the spec: the error taxonomy of spec section 7; the service
throws bare Error objects, and this maps each creation-time throw to its
spec-level class (date validation failures are InvalidInput). -/
inductive SpecError where
  | NotFound
  | InvalidInput
  | Conflict
  | Unauthorized
  | InvalidState
deriving DecidableEq

/-- Modelled from the spec: classification of the creation errors under the
spec's taxonomy. -/
def toSpecError : CreateError → SpecError
  | .EmployeeNotFound => .NotFound
  | .InvalidDates => .InvalidInput
  | .PastDate => .InvalidInput
  | .Overlap => .Conflict

/-- Modelled from the spec: two inclusive ranges overlap iff
s1 <= e2 AND s2 <= e1. -/
def specOverlap (s1 e1 s2 e2 : Int) : Prop :=
  s1 ≤ e2 ∧ s2 ≤ e1

/-- Modelled from the spec: a record was created within the calendar year that
starts at instant `yearStart` and ends just before instant `nextYearStart`. -/
def createdWithinCalendarYear (yearStart nextYearStart : Int)
    (r : LeaveRequest) : Bool :=
  decide (yearStart ≤ r.createdAt) && decide (r.createdAt < nextYearStart)

/-- The spec invariant: no two active (APPROVED or PENDING_APPROVAL) leave
requests of the same employee have intersecting inclusive date ranges. -/
def noActiveOverlap (s : LeaveState) : Prop :=
  ∀ r1 ∈ s.requests, ∀ r2 ∈ s.requests,
    r1.id ≠ r2.id → r1.employeeId = r2.employeeId →
    isActive r1.status = true → isActive r2.status = true →
    ¬ (r1.startDate ≤ r2.endDate ∧ r2.startDate ≤ r1.endDate)

/-- A concrete four-step run of the public operations (two creations followed
by the auto-processing of both queued events): two one-day requests of
employee 1 for the same day are created while both are still PENDING — the
overlap query only inspects APPROVED and PENDING_APPROVAL rows — and the
consumer then auto-approves both. -/
def overlapTraceState : LeaveState :=
  handleQueueMessage 2 0
    (handleQueueMessage 2 0
      (createLeaveRequest [1] 0 0 "gB"
        (createLeaveRequest [1] 0 0 "gA"
          { requests := [], nextId := 1, published := [] }
          { employeeId := 1, startDate := 0, endDate := 0,
            idempotencyKey := some "a" }).2
        { employeeId := 1, startDate := 0, endDate := 0,
          idempotencyKey := some "b" }).2
      LEAVE_REQUESTED_KEY (some 1))
    LEAVE_REQUESTED_KEY (some 2)

/-! ## Helper lemmas -/

/-- Creation fails first on a missing employee. -/
theorem create_employee_not_found {employees : List Nat}
    {todayStart now : Int} {gk : String} {s : LeaveState} {input : CreateInput}
    (h : employees.contains input.employeeId = false) :
    createLeaveRequest employees todayStart now gk s input =
      (.error .EmployeeNotFound, s) := by
  have h' : input.employeeId ∉ employees := by simpa using h
  simp [createLeaveRequest, h']

/-- Creation fails on reversed dates. -/
theorem create_invalid_dates {employees : List Nat} {todayStart now : Int}
    {gk : String} {s : LeaveState} {input : CreateInput}
    (hemp : employees.contains input.employeeId = true)
    (hd : input.endDate < input.startDate) :
    createLeaveRequest employees todayStart now gk s input =
      (.error .InvalidDates, s) := by
  have hemp' : input.employeeId ∈ employees := by simpa using hemp
  simp [createLeaveRequest, hemp', hd]

/-- Creation fails on a start date before the current day. -/
theorem create_past_date {employees : List Nat} {todayStart now : Int}
    {gk : String} {s : LeaveState} {input : CreateInput}
    (hemp : employees.contains input.employeeId = true)
    (hd : ¬ input.endDate < input.startDate)
    (hp : input.startDate < todayStart) :
    createLeaveRequest employees todayStart now gk s input =
      (.error .PastDate, s) := by
  have hemp' : input.employeeId ∈ employees := by simpa using hemp
  simp [createLeaveRequest, hemp', hd, hp]

/-- Creation fails when the overlap query returns any row. -/
theorem create_overlap_error {employees : List Nat} {todayStart now : Int}
    {gk : String} {s : LeaveState} {input : CreateInput}
    (hemp : employees.contains input.employeeId = true)
    (hd : ¬ input.endDate < input.startDate)
    (hp : ¬ input.startDate < todayStart)
    (hov : 0 < (findOverlapping s input.employeeId input.startDate
                  input.endDate none).length) :
    createLeaveRequest employees todayStart now gk s input =
      (.error .Overlap, s) := by
  have hemp' : input.employeeId ∈ employees := by simpa using hemp
  simp [createLeaveRequest, hemp', hd, hp, hov]

/-- Creation short-circuits, without writing, when the resolved idempotency
key is already present. -/
theorem create_duplicate {employees : List Nat} {todayStart now : Int}
    {gk : String} {s : LeaveState} {input : CreateInput} {ex : LeaveRequest}
    (hemp : employees.contains input.employeeId = true)
    (hd : ¬ input.endDate < input.startDate)
    (hp : ¬ input.startDate < todayStart)
    (hov : ¬ 0 < (findOverlapping s input.employeeId input.startDate
                    input.endDate none).length)
    (hkey : findByIdempotencyKey s
        (resolveIdempotencyKey input.idempotencyKey gk) = some ex) :
    createLeaveRequest employees todayStart now gk s input =
      (.ok { record := ex, duplicate := true }, s) := by
  have hemp' : input.employeeId ∈ employees := by simpa using hemp
  simp [createLeaveRequest, hemp', hd, hp, hov, hkey]

/-- The freshly inserted row is what the closing re-fetch of the creation path
finds. -/
theorem findById_after_create (s : LeaveState) (r : LeaveRequest)
    (e : QueueEvent) :
    findById (publishEvent (repoCreate s r) e) r.id = some r := by
  simp [findById, publishEvent, repoCreate]

/-- The fresh-creation path: all checks pass, no row holds the resolved key,
so the PENDING row is inserted and the requested event published. -/
theorem create_fresh {employees : List Nat} {todayStart now : Int}
    {gk : String} {s : LeaveState} {input : CreateInput}
    (hemp : employees.contains input.employeeId = true)
    (hd : ¬ input.endDate < input.startDate)
    (hp : ¬ input.startDate < todayStart)
    (hov : ¬ 0 < (findOverlapping s input.employeeId input.startDate
                    input.endDate none).length)
    (hkey : findByIdempotencyKey s
        (resolveIdempotencyKey input.idempotencyKey gk) = none) :
    createLeaveRequest employees todayStart now gk s input =
      (.ok { record := createdRequest s input
               (resolveIdempotencyKey input.idempotencyKey gk) now,
             duplicate := false },
       publishEvent
         (repoCreate s (createdRequest s input
            (resolveIdempotencyKey input.idempotencyKey gk) now))
         (.leaveRequested s.nextId input.employeeId input.startDate
            input.endDate .PENDING
            (resolveIdempotencyKey input.idempotencyKey gk) now)) := by
  have hemp' : input.employeeId ∈ employees := by simpa using hemp
  simp [createLeaveRequest, hemp', hd, hp, hov, hkey, createdRequest,
    findById, publishEvent, repoCreate]

/-- The overlap query's row condition is the inclusive-intersection predicate
on well-formed ranges. -/
theorem overlapMatch_iff {s1 e1 s2 e2 : Int} (h1 : s1 ≤ e1) (h2 : s2 ≤ e2) :
    overlapMatch s1 e1 s2 e2 = true ↔ specOverlap s1 e1 s2 e2 := by
  simp only [overlapMatch, specOverlap, Bool.or_eq_true, Bool.and_eq_true,
    decide_eq_true_eq, ge_iff_le]
  omega

/-- A duration computed from parsed dates is clamped to at least one day. -/
theorem calculateLeaveDuration_eq (sd ed : Int) :
    calculateLeaveDuration (some sd) (some ed) =
      some (max 1 (ceilDivInt (ed - sd) MILLISECONDS_IN_DAY + 1)) := rfl

/-- Updating a status touches no other column of other rows and forces the new
status on every row carrying the updated id. -/
theorem repoUpdateStatus_status {now : Int} {s : LeaveState} {id : Nat}
    {st : LeaveStatus} {q : LeaveRequest}
    (hq : q ∈ (repoUpdateStatus now s id st).requests) (hid : q.id = id) :
    q.status = st := by
  simp only [repoUpdateStatus, List.mem_map] at hq
  obtain ⟨r, _, hr⟩ := hq
  by_cases h : r.id = id
  · simp only [if_pos h] at hr
    subst hr
    rfl
  · simp only [if_neg h] at hr
    subst hr
    exact absurd hid h

/-- Auto-processing a PENDING request within the threshold updates it to
APPROVED and publishes the approval event. -/
theorem autoProcess_pending_approves {threshold now : Int} {s : LeaveState}
    {r : LeaveRequest} (hp : r.status = .PENDING)
    (hd : max 1 (ceilDivInt (r.endDate - r.startDate) MILLISECONDS_IN_DAY + 1)
            ≤ threshold) :
    autoProcessLeaveRequest threshold now s (some r) =
      publishEvent (repoUpdateStatus now s r.id .APPROVED)
        (.leaveApproved r.id r.employeeId r.startDate r.endDate now) := by
  simp [autoProcessLeaveRequest, calculateLeaveDuration, hp, hd]

/-- Auto-processing a PENDING request beyond the threshold updates it to
PENDING_APPROVAL and publishes nothing. -/
theorem autoProcess_pending_defers {threshold now : Int} {s : LeaveState}
    {r : LeaveRequest} (hp : r.status = .PENDING)
    (hd : threshold <
            max 1 (ceilDivInt (r.endDate - r.startDate) MILLISECONDS_IN_DAY + 1)) :
    autoProcessLeaveRequest threshold now s (some r) =
      repoUpdateStatus now s r.id .PENDING_APPROVAL := by
  simp [autoProcessLeaveRequest, calculateLeaveDuration, hp, not_le.mpr hd]

/-- A successful, non-duplicate creation means every validation passed and the
resolved key was fresh. -/
theorem create_not_dup_inversion {employees : List Nat} {todayStart now : Int}
    {gk : String} {s : LeaveState} {input : CreateInput}
    (h : okDuplicate (createLeaveRequest employees todayStart now gk s
          input).1 = some false) :
    employees.contains input.employeeId = true ∧
    ¬ input.endDate < input.startDate ∧
    ¬ input.startDate < todayStart ∧
    ¬ 0 < (findOverlapping s input.employeeId input.startDate input.endDate
            none).length ∧
    findByIdempotencyKey s
      (resolveIdempotencyKey input.idempotencyKey gk) = none := by
  by_cases hemp : employees.contains input.employeeId = false
  · rw [create_employee_not_found hemp] at h
    simp [okDuplicate] at h
  have hemp' : employees.contains input.employeeId = true := by
    revert hemp
    cases employees.contains input.employeeId <;> simp
  by_cases hd : input.endDate < input.startDate
  · rw [create_invalid_dates hemp' hd] at h
    simp [okDuplicate] at h
  by_cases hp : input.startDate < todayStart
  · rw [create_past_date hemp' hd hp] at h
    simp [okDuplicate] at h
  by_cases hov : 0 < (findOverlapping s input.employeeId input.startDate
      input.endDate none).length
  · rw [create_overlap_error hemp' hd hp hov] at h
    simp [okDuplicate] at h
  cases hkey : findByIdempotencyKey s
      (resolveIdempotencyKey input.idempotencyKey gk) with
  | some ex =>
    rw [create_duplicate hemp' hd hp hov hkey] at h
    simp [okDuplicate] at h
  | none => exact ⟨hemp', hd, hp, hov, rfl⟩

/-- Prepending an inactive row leaves the overlap query's result unchanged. -/
theorem findOverlapping_cons_inactive {s : LeaveState} {r : LeaveRequest}
    (hr : isActive r.status = false) (employeeId : Nat)
    (startDate endDate : Int) (e : QueueEvent) :
    findOverlapping (publishEvent (repoCreate s r) e) employeeId startDate
        endDate none =
      findOverlapping s employeeId startDate endDate none := by
  simp [findOverlapping, publishEvent, repoCreate, List.filter_cons, hr]

/-- The freshly created row is found again by its idempotency key. -/
theorem findByIdempotencyKey_created (s : LeaveState) (input : CreateInput)
    (key : String) (now : Int) (e : QueueEvent) :
    findByIdempotencyKey
        (publishEvent (repoCreate s (createdRequest s input key now)) e) key =
      some (createdRequest s input key now) := by
  simp [findByIdempotencyKey, publishEvent, repoCreate, createdRequest]

/-- A provided non-empty key wins over the generated one. -/
theorem resolveIdempotencyKey_provided {provided : Option String} {k : String}
    (hp : provided = some k) (hk : ¬ k = "") (gk : String) :
    resolveIdempotencyKey provided gk = k := by
  rw [hp]
  simp [resolveIdempotencyKey, hk]

/-! ## Claims -/

/-- Claim C3: the store-level overlap query's match condition (existing start
in the candidate range, or existing end in the candidate range, or existing
range containing the candidate) holds, on well-formed ranges, exactly when the
inclusive-endpoint intersection predicate s1 <= e2 AND s2 <= e1 holds; in
particular ranges [1,5] and [5,8] overlap and [1,5] and [6,8] do not. -/
theorem overlap_query_matches_spec :
    (∀ s1 e1 s2 e2 : Int, s1 ≤ e1 → s2 ≤ e2 →
      (overlapMatch s1 e1 s2 e2 = true ↔ specOverlap s1 e1 s2 e2)) ∧
    overlapMatch 1 5 5 8 = true ∧ overlapMatch 1 5 6 8 = false := by
  refine ⟨fun s1 e1 s2 e2 h1 h2 => overlapMatch_iff h1 h2, by decide, by decide⟩

/-- Witness for C3 at the concrete boundary-touching ranges [1,5] and [5,8]. -/
theorem overlap_query_matches_spec_witness : specOverlap 1 5 5 8 :=
  (overlap_query_matches_spec.1 1 5 5 8 (by decide) (by decide)).mp (by decide)

/-- Claim C6: the duration classifier computes
max(1, ceil((endDate - startDate) / 1 day) + 1) on parsed dates — so a
single-day leave yields 1 and a leave from day N to day N+2 yields 3 — and
returns the undeterminable result (none) whenever either date fails to
parse. -/
theorem duration_classifier_spec :
    (∀ sd ed : Int, calculateLeaveDuration (some sd) (some ed) =
        some (max 1 (ceilDivInt (ed - sd) MILLISECONDS_IN_DAY + 1))) ∧
    (∀ sd : Int, calculateLeaveDuration (some sd) (some sd) = some 1) ∧
    (∀ sd : Int, calculateLeaveDuration (some sd)
        (some (sd + 2 * MILLISECONDS_IN_DAY)) = some 3) ∧
    (∀ e : Option Int, calculateLeaveDuration none e = none) ∧
    (∀ s : Option Int, calculateLeaveDuration s none = none) := by
  refine ⟨fun sd ed => rfl, fun sd => ?_, fun sd => ?_, fun e => rfl,
    fun s => ?_⟩
  · simp only [calculateLeaveDuration, ceilDivInt, Option.some.injEq]
    norm_num [MILLISECONDS_IN_DAY]
  · simp only [calculateLeaveDuration, ceilDivInt, Option.some.injEq]
    norm_num [MILLISECONDS_IN_DAY]
  · cases s <;> rfl

/-- Claim C5: consuming a requested event whose re-fetched record is no longer
PENDING changes no stored state and publishes nothing — replaying an event
after the record moved to APPROVED is a no-op. -/
theorem reprocessing_guard (threshold now : Int) (s : LeaveState) (id : Nat)
    (r : LeaveRequest) (hfind : findById s id = some r)
    (hnp : r.status ≠ .PENDING) :
    handleQueueMessage threshold now s LEAVE_REQUESTED_KEY (some id) = s := by
  by_cases hid : id = 0
  · simp [handleQueueMessage, hid]
  · simp [handleQueueMessage, hid, hfind, autoProcessLeaveRequest, hnp]

/-- Witness for C5: replaying on a store whose only record is APPROVED. -/
theorem reprocessing_guard_witness :
    handleQueueMessage 2 0
      { requests := [{ id := 1, employeeId := 1, startDate := 0, endDate := 0,
                       status := .APPROVED, idempotencyKey := none,
                       processedAt := none, createdAt := 0 }],
        nextId := 2, published := [] }
      LEAVE_REQUESTED_KEY (some 1) =
      { requests := [{ id := 1, employeeId := 1, startDate := 0, endDate := 0,
                       status := .APPROVED, idempotencyKey := none,
                       processedAt := none, createdAt := 0 }],
        nextId := 2, published := [] } :=
  reprocessing_guard 2 0 _ 1
    { id := 1, employeeId := 1, startDate := 0, endDate := 0,
      status := .APPROVED, idempotencyKey := none, processedAt := none,
      createdAt := 0 }
    (by decide) (by decide)

/-- Claim C1: when a first call to createLeaveRequest with a provided
(non-empty) idempotency key succeeds as a fresh creation (duplicate flag
false), a second call with the same input on the resulting store returns the
same record id flagged as a duplicate and leaves the store — rows, counter and
published events alike — exactly as the first call left it. -/
theorem idempotent_creation (employees : List Nat)
    (todayStart now1 now2 : Int) (gk1 gk2 : String) (s : LeaveState)
    (input : CreateInput) (k : String)
    (hkey : input.idempotencyKey = some k) (hk : ¬ k = "")
    (hfirst : okDuplicate (createLeaveRequest employees todayStart now1 gk1 s
        input).1 = some false) :
    (createLeaveRequest employees todayStart now2 gk2
        (createLeaveRequest employees todayStart now1 gk1 s input).2 input).2
      = (createLeaveRequest employees todayStart now1 gk1 s input).2 ∧
    okDuplicate (createLeaveRequest employees todayStart now2 gk2
        (createLeaveRequest employees todayStart now1 gk1 s input).2 input).1
      = some true ∧
    okRecordId (createLeaveRequest employees todayStart now2 gk2
        (createLeaveRequest employees todayStart now1 gk1 s input).2 input).1
      = okRecordId (createLeaveRequest employees todayStart now1 gk1 s
          input).1 ∧
    okRecordId (createLeaveRequest employees todayStart now1 gk1 s input).1
      ≠ none := by
  obtain ⟨hemp, hd, hp, hov, hkn⟩ := create_not_dup_inversion hfirst
  have hk1 : resolveIdempotencyKey input.idempotencyKey gk1 = k :=
    resolveIdempotencyKey_provided hkey hk gk1
  have hk2 : resolveIdempotencyKey input.idempotencyKey gk2 = k :=
    resolveIdempotencyKey_provided hkey hk gk2
  have hres1 := @create_fresh employees todayStart now1 gk1 s input hemp hd hp
    hov hkn
  rw [hk1] at hres1
  rw [hres1]
  have hov2 : ¬ 0 < (findOverlapping
      (publishEvent (repoCreate s (createdRequest s input k now1))
        (.leaveRequested s.nextId input.employeeId input.startDate
          input.endDate .PENDING k now1))
      input.employeeId input.startDate input.endDate none).length := by
    rw [@findOverlapping_cons_inactive s (createdRequest s input k now1) rfl
      input.employeeId input.startDate input.endDate _]
    exact hov
  have hkey2 : findByIdempotencyKey
      (publishEvent (repoCreate s (createdRequest s input k now1))
        (.leaveRequested s.nextId input.employeeId input.startDate
          input.endDate .PENDING k now1))
      (resolveIdempotencyKey input.idempotencyKey gk2) =
        some (createdRequest s input k now1) := by
    rw [hk2]
    exact findByIdempotencyKey_created s input k now1 _
  rw [create_duplicate hemp hd hp hov2 hkey2]
  exact ⟨rfl, rfl, rfl, by simp [okRecordId]⟩

/-- Witness for C1: a fresh creation with key "k" followed by an identical
call on the resulting store. -/
theorem idempotent_creation_witness :
    (createLeaveRequest [1] 0 6 "g2"
        (createLeaveRequest [1] 0 5 "g1"
          { requests := [], nextId := 1, published := [] }
          { employeeId := 1, startDate := 0, endDate := 0,
            idempotencyKey := some "k" }).2
        { employeeId := 1, startDate := 0, endDate := 0,
          idempotencyKey := some "k" }).2
      = (createLeaveRequest [1] 0 5 "g1"
          { requests := [], nextId := 1, published := [] }
          { employeeId := 1, startDate := 0, endDate := 0,
            idempotencyKey := some "k" }).2 ∧
    okDuplicate (createLeaveRequest [1] 0 6 "g2"
        (createLeaveRequest [1] 0 5 "g1"
          { requests := [], nextId := 1, published := [] }
          { employeeId := 1, startDate := 0, endDate := 0,
            idempotencyKey := some "k" }).2
        { employeeId := 1, startDate := 0, endDate := 0,
          idempotencyKey := some "k" }).1 = some true ∧
    okRecordId (createLeaveRequest [1] 0 6 "g2"
        (createLeaveRequest [1] 0 5 "g1"
          { requests := [], nextId := 1, published := [] }
          { employeeId := 1, startDate := 0, endDate := 0,
            idempotencyKey := some "k" }).2
        { employeeId := 1, startDate := 0, endDate := 0,
          idempotencyKey := some "k" }).1
      = okRecordId (createLeaveRequest [1] 0 5 "g1"
          { requests := [], nextId := 1, published := [] }
          { employeeId := 1, startDate := 0, endDate := 0,
            idempotencyKey := some "k" }).1 ∧
    okRecordId (createLeaveRequest [1] 0 5 "g1"
        { requests := [], nextId := 1, published := [] }
        { employeeId := 1, startDate := 0, endDate := 0,
          idempotencyKey := some "k" }).1 ≠ none :=
  idempotent_creation [1] 0 5 6 "g1" "g2"
    { requests := [], nextId := 1, published := [] }
    { employeeId := 1, startDate := 0, endDate := 0,
      idempotencyKey := some "k" }
    "k" rfl (by decide) (by decide)

/-- Claim C9: a creation request (for an existing employee, with ordered
dates) whose start date lies before the start of the current day fails with
the past-date error — InvalidInput in the spec's taxonomy — and leaves the
store untouched, while a start date equal to the start of the current day
passes the check (and, with no conflicting rows and a fresh key, is
persisted). -/
theorem past_date_rejection (employees : List Nat) (todayStart now : Int)
    (gk : String) (s : LeaveState) (input : CreateInput) :
    (employees.contains input.employeeId = true →
     ¬ input.endDate < input.startDate →
     input.startDate < todayStart →
       createLeaveRequest employees todayStart now gk s input =
         (.error .PastDate, s) ∧
       toSpecError .PastDate = .InvalidInput) ∧
    (employees.contains input.employeeId = true →
     ¬ input.endDate < input.startDate →
     input.startDate = todayStart →
     findOverlapping s input.employeeId input.startDate input.endDate none
       = [] →
     findByIdempotencyKey s
       (resolveIdempotencyKey input.idempotencyKey gk) = none →
       okDuplicate (createLeaveRequest employees todayStart now gk s
           input).1 = some false ∧
       (createLeaveRequest employees todayStart now gk s input).2.requests =
         createdRequest s input
           (resolveIdempotencyKey input.idempotencyKey gk) now
           :: s.requests) := by
  constructor
  · intro hemp hd hp
    exact ⟨create_past_date hemp hd hp, rfl⟩
  · intro hemp hd hp hov hkey
    have hp' : ¬ input.startDate < todayStart := by rw [hp]; exact lt_irrefl _
    have hov' : ¬ 0 < (findOverlapping s input.employeeId input.startDate
        input.endDate none).length := by simp [hov]
    rw [create_fresh hemp hd hp' hov' hkey]
    exact ⟨rfl, rfl⟩

/-- Witness for C9: both branches at concrete inputs — a start one day before
today is rejected with the store unchanged, and a start exactly at today's
boundary is persisted. -/
theorem past_date_rejection_witness :
    (createLeaveRequest [1] MILLISECONDS_IN_DAY 0 "g"
        { requests := [], nextId := 1, published := [] }
        { employeeId := 1, startDate := 0, endDate := 0,
          idempotencyKey := none } =
      (.error .PastDate, { requests := [], nextId := 1, published := [] }) ∧
     toSpecError .PastDate = .InvalidInput) ∧
    (okDuplicate (createLeaveRequest [1] MILLISECONDS_IN_DAY 0 "g"
        { requests := [], nextId := 1, published := [] }
        { employeeId := 1, startDate := MILLISECONDS_IN_DAY,
          endDate := MILLISECONDS_IN_DAY, idempotencyKey := none }).1
      = some false ∧
     (createLeaveRequest [1] MILLISECONDS_IN_DAY 0 "g"
        { requests := [], nextId := 1, published := [] }
        { employeeId := 1, startDate := MILLISECONDS_IN_DAY,
          endDate := MILLISECONDS_IN_DAY, idempotencyKey := none }).2.requests
      = createdRequest { requests := [], nextId := 1, published := [] }
          { employeeId := 1, startDate := MILLISECONDS_IN_DAY,
            endDate := MILLISECONDS_IN_DAY, idempotencyKey := none }
          (resolveIdempotencyKey none "g") 0
        :: []) :=
  ⟨(past_date_rejection [1] MILLISECONDS_IN_DAY 0 "g"
      { requests := [], nextId := 1, published := [] }
      { employeeId := 1, startDate := 0, endDate := 0,
        idempotencyKey := none }).1 (by decide) (by decide) (by decide),
   (past_date_rejection [1] MILLISECONDS_IN_DAY 0 "g"
      { requests := [], nextId := 1, published := [] }
      { employeeId := 1, startDate := MILLISECONDS_IN_DAY,
        endDate := MILLISECONDS_IN_DAY, idempotencyKey := none }).2
     (by decide) (by decide) (by decide) (by decide) (by decide)⟩

/-- Claim C4: for a fetched PENDING record the auto-processor approves and
publishes a leave.approved event when the inclusive duration is at most the
threshold, and moves the record to PENDING_APPROVAL publishing nothing when
the duration exceeds it. -/
theorem auto_approval_threshold (threshold now : Int) (s : LeaveState)
    (r : LeaveRequest) (hp : r.status = .PENDING) :
    (max 1 (ceilDivInt (r.endDate - r.startDate) MILLISECONDS_IN_DAY + 1)
        ≤ threshold →
      (∀ q ∈ (autoProcessLeaveRequest threshold now s (some r)).requests,
          q.id = r.id → q.status = .APPROVED) ∧
      (autoProcessLeaveRequest threshold now s (some r)).published =
        s.published ++
          [.leaveApproved r.id r.employeeId r.startDate r.endDate now]) ∧
    (threshold <
        max 1 (ceilDivInt (r.endDate - r.startDate) MILLISECONDS_IN_DAY + 1) →
      (∀ q ∈ (autoProcessLeaveRequest threshold now s (some r)).requests,
          q.id = r.id → q.status = .PENDING_APPROVAL) ∧
      (autoProcessLeaveRequest threshold now s (some r)).published =
        s.published) := by
  constructor
  · intro hd
    rw [autoProcess_pending_approves hp hd]
    refine ⟨fun q hq hid => ?_, rfl⟩
    exact repoUpdateStatus_status hq hid
  · intro hd
    rw [autoProcess_pending_defers hp hd]
    refine ⟨fun q hq hid => ?_, rfl⟩
    exact repoUpdateStatus_status hq hid

/-- Witness for C4: a one-day PENDING request under the default threshold of
two days is approved and the approval event is published. -/
theorem auto_approval_threshold_witness :
    (∀ q ∈ (autoProcessLeaveRequest AUTO_APPROVE_DAYS_THRESHOLD 7
        { requests := [{ id := 1, employeeId := 4, startDate := 0, endDate := 0,
                         status := .PENDING, idempotencyKey := none,
                         processedAt := none, createdAt := 0 }],
          nextId := 2, published := [] }
        (some { id := 1, employeeId := 4, startDate := 0, endDate := 0,
                status := .PENDING, idempotencyKey := none,
                processedAt := none, createdAt := 0 })).requests,
      q.id = 1 → q.status = .APPROVED) ∧
    (autoProcessLeaveRequest AUTO_APPROVE_DAYS_THRESHOLD 7
        { requests := [{ id := 1, employeeId := 4, startDate := 0, endDate := 0,
                         status := .PENDING, idempotencyKey := none,
                         processedAt := none, createdAt := 0 }],
          nextId := 2, published := [] }
        (some { id := 1, employeeId := 4, startDate := 0, endDate := 0,
                status := .PENDING, idempotencyKey := none,
                processedAt := none, createdAt := 0 })).published =
      [] ++ [.leaveApproved 1 4 0 0 7] :=
  (auto_approval_threshold AUTO_APPROVE_DAYS_THRESHOLD 7 _ _ rfl).1 (by decide)

/-- Claim C10: the duration classifier is total on parseable dates and never
returns a value below 1; with endDate strictly before startDate it returns 1,
so a stored PENDING record with reversed dates is classified as a one-day
leave and auto-approved by the processor (for any threshold of at least one
day) instead of being skipped. -/
theorem reversed_dates_auto_approved :
    (∀ sd ed : Int, ∃ d, calculateLeaveDuration (some sd) (some ed) = some d ∧
        1 ≤ d) ∧
    (∀ sd ed : Int, ed < sd →
        calculateLeaveDuration (some sd) (some ed) = some 1) ∧
    (∀ threshold now : Int, ∀ s : LeaveState, ∀ r : LeaveRequest,
        r.status = .PENDING → r.endDate < r.startDate → 1 ≤ threshold →
        ∀ q ∈ (autoProcessLeaveRequest threshold now s (some r)).requests,
          q.id = r.id → q.status = .APPROVED) := by
  have hone : ∀ sd ed : Int, ed < sd →
      max 1 (ceilDivInt (ed - sd) MILLISECONDS_IN_DAY + 1) = 1 := by
    intro sd ed h
    simp only [ceilDivInt]
    norm_num [MILLISECONDS_IN_DAY]
    omega
  refine ⟨fun sd ed => ⟨_, rfl, le_max_left 1 _⟩, fun sd ed h => ?_, ?_⟩
  · rw [calculateLeaveDuration_eq, hone sd ed h]
  · intro threshold now s r hp hrev hth q hq hid
    have hd : max 1 (ceilDivInt (r.endDate - r.startDate)
        MILLISECONDS_IN_DAY + 1) ≤ threshold := by
      rw [hone r.startDate r.endDate hrev]
      exact hth
    rw [autoProcess_pending_approves hp hd] at hq
    exact repoUpdateStatus_status hq hid

/-- Witness for C10: a PENDING record whose endDate precedes its startDate by
a full day is classified as one day and approved under the default
threshold. -/
theorem reversed_dates_auto_approved_witness :
    calculateLeaveDuration (some MILLISECONDS_IN_DAY) (some 0) = some 1 ∧
    (∀ q ∈ (autoProcessLeaveRequest AUTO_APPROVE_DAYS_THRESHOLD 3
        { requests := [{ id := 1, employeeId := 2,
                         startDate := MILLISECONDS_IN_DAY, endDate := 0,
                         status := .PENDING, idempotencyKey := none,
                         processedAt := none, createdAt := 0 }],
          nextId := 2, published := [] }
        (some { id := 1, employeeId := 2, startDate := MILLISECONDS_IN_DAY,
                endDate := 0, status := .PENDING, idempotencyKey := none,
                processedAt := none, createdAt := 0 })).requests,
      q.id = 1 → q.status = .APPROVED) :=
  ⟨reversed_dates_auto_approved.2.1 MILLISECONDS_IN_DAY 0 (by decide),
   reversed_dates_auto_approved.2.2 AUTO_APPROVE_DAYS_THRESHOLD 3 _
     { id := 1, employeeId := 2, startDate := MILLISECONDS_IN_DAY,
       endDate := 0, status := .PENDING, idempotencyKey := none,
       processedAt := none, createdAt := 0 }
     rfl (by decide) (by decide)⟩

/-- Claim C8: cancellation fails NotFound when no record carries the id,
Unauthorized when the requester is not the record's owner, InvalidState when
the record is REJECTED — each failure leaving the store unchanged — and
otherwise hard-deletes the record, which is no longer findable afterwards. -/
theorem cancellation_rules (s : LeaveState) (id eid : Nat) :
    (findById s id = none →
       cancelLeaveRequest s id eid = (.error .NotFound, s)) ∧
    (∀ r, findById s id = some r → r.employeeId ≠ eid →
       cancelLeaveRequest s id eid = (.error .Unauthorized, s)) ∧
    (∀ r, findById s id = some r → r.employeeId = eid →
       r.status = .REJECTED →
       cancelLeaveRequest s id eid = (.error .InvalidState, s)) ∧
    (∀ r, findById s id = some r → r.employeeId = eid →
       r.status ≠ .REJECTED →
       cancelLeaveRequest s id eid = (.ok (), repoDelete s id) ∧
       findById (repoDelete s id) id = none) := by
  refine ⟨fun hf => ?_, fun r hf hne => ?_, fun r hf heq hst => ?_,
    fun r hf heq hst => ⟨?_, ?_⟩⟩
  · simp [cancelLeaveRequest, hf]
  · simp [cancelLeaveRequest, hf, hne]
  · simp [cancelLeaveRequest, hf, heq, hst]
  · simp [cancelLeaveRequest, hf, heq, hst]
  · simp only [findById, repoDelete, List.find?_eq_none, List.mem_filter,
      bne_iff_ne, ne_eq, beq_iff_eq, and_imp]
    intro x _ hx
    exact hx

/-- Witness for C8: cancelling employee 1's record as employee 2 fails
Unauthorized and leaves the store unchanged. -/
theorem cancellation_rules_witness :
    cancelLeaveRequest
        { requests := [{ id := 1, employeeId := 1, startDate := 0,
                         endDate := 0, status := .PENDING,
                         idempotencyKey := none, processedAt := none,
                         createdAt := 0 }],
          nextId := 2, published := [] } 1 2 =
      (.error .Unauthorized,
       { requests := [{ id := 1, employeeId := 1, startDate := 0,
                        endDate := 0, status := .PENDING,
                        idempotencyKey := none, processedAt := none,
                        createdAt := 0 }],
         nextId := 2, published := [] }) :=
  (cancellation_rules
      { requests := [{ id := 1, employeeId := 1, startDate := 0, endDate := 0,
                       status := .PENDING, idempotencyKey := none,
                       processedAt := none, createdAt := 0 }],
        nextId := 2, published := [] } 1 2).2.1
    { id := 1, employeeId := 1, startDate := 0, endDate := 0,
      status := .PENDING, idempotencyKey := none, processedAt := none,
      createdAt := 0 }
    (by decide) (by decide)

/-- Claim C2, counterexample: the no-overlap invariant over active requests is
not maintained across the public operations.  Two identical one-day requests
of employee 1 are created back to back (the overlap query ignores PENDING
rows), and the auto-processor then approves both queued events; the resulting
reachable state holds two overlapping APPROVED requests for the employee. -/
theorem invariant_violation_reachable : ¬ noActiveOverlap overlapTraceState := by
  unfold noActiveOverlap
  decide

/-- Claim C2, amended: creation itself upholds the invariant — it preserves
no-active-overlap, and any candidate that intersects an existing active
request of the employee is rejected with the overlap error — but the other
operations do not re-check overlap, so the invariant does not hold in every
reachable state (see the counterexample). -/
theorem creation_upholds_invariant (employees : List Nat)
    (todayStart now : Int) (gk : String) (s : LeaveState)
    (input : CreateInput) :
    (noActiveOverlap s →
       noActiveOverlap (createLeaveRequest employees todayStart now gk s
         input).2) ∧
    (employees.contains input.employeeId = true →
     ¬ input.endDate < input.startDate →
     ¬ input.startDate < todayStart →
     ∀ r ∈ s.requests, r.employeeId = input.employeeId →
       isActive r.status = true → r.startDate ≤ r.endDate →
       specOverlap input.startDate input.endDate r.startDate r.endDate →
       createLeaveRequest employees todayStart now gk s input =
         (.error .Overlap, s)) := by
  constructor
  · intro hinv
    by_cases hemp : employees.contains input.employeeId = false
    · rw [create_employee_not_found hemp]
      exact hinv
    have hemp' : employees.contains input.employeeId = true := by
      revert hemp
      cases employees.contains input.employeeId <;> simp
    by_cases hd : input.endDate < input.startDate
    · rw [create_invalid_dates hemp' hd]
      exact hinv
    by_cases hp : input.startDate < todayStart
    · rw [create_past_date hemp' hd hp]
      exact hinv
    by_cases hov : 0 < (findOverlapping s input.employeeId input.startDate
        input.endDate none).length
    · rw [create_overlap_error hemp' hd hp hov]
      exact hinv
    cases hkey : findByIdempotencyKey s
        (resolveIdempotencyKey input.idempotencyKey gk) with
    | some ex =>
      rw [create_duplicate hemp' hd hp hov hkey]
      exact hinv
    | none =>
      rw [create_fresh hemp' hd hp hov hkey]
      intro r1 h1 r2 h2 hne hemp12 hact1 hact2
      simp only [publishEvent, repoCreate, List.mem_cons] at h1 h2
      rcases h1 with h1 | h1
      · rw [h1] at hact1
        simp [createdRequest, isActive] at hact1
      rcases h2 with h2 | h2
      · rw [h2] at hact2
        simp [createdRequest, isActive] at hact2
      exact hinv r1 h1 r2 h2 hne hemp12 hact1 hact2
  · intro hemp hd hp r hr hremp hract hrwf hspec
    have hin : input.startDate ≤ input.endDate := not_lt.mp hd
    have hmatch : overlapMatch input.startDate input.endDate r.startDate
        r.endDate = true := (overlapMatch_iff hin hrwf).mpr hspec
    have hmem : r ∈ findOverlapping s input.employeeId input.startDate
        input.endDate none := by
      simp only [findOverlapping, List.mem_filter]
      exact ⟨hr, by simp [hremp, hract, hmatch]⟩
    exact create_overlap_error hemp hd hp (List.length_pos_of_mem hmem)

/-- Witness for C2's amended theorem: a fresh one-day request colliding with
an APPROVED request of the same employee on the same day is rejected. -/
theorem creation_upholds_invariant_witness :
    createLeaveRequest [1] 0 0 "g"
        { requests := [{ id := 1, employeeId := 1, startDate := 0,
                         endDate := 0, status := .APPROVED,
                         idempotencyKey := none, processedAt := none,
                         createdAt := 0 }],
          nextId := 2, published := [] }
        { employeeId := 1, startDate := 0, endDate := 0,
          idempotencyKey := some "k2" } =
      (.error .Overlap,
       { requests := [{ id := 1, employeeId := 1, startDate := 0,
                        endDate := 0, status := .APPROVED,
                        idempotencyKey := none, processedAt := none,
                        createdAt := 0 }],
         nextId := 2, published := [] }) :=
  (creation_upholds_invariant [1] 0 0 "g"
      { requests := [{ id := 1, employeeId := 1, startDate := 0, endDate := 0,
                       status := .APPROVED, idempotencyKey := none,
                       processedAt := none, createdAt := 0 }],
        nextId := 2, published := [] }
      { employeeId := 1, startDate := 0, endDate := 0,
        idempotencyKey := some "k2" }).2
    (by decide) (by decide) (by decide)
    { id := 1, employeeId := 1, startDate := 0, endDate := 0,
      status := .APPROVED, idempotencyKey := none, processedAt := none,
      createdAt := 0 }
    (by decide) (by decide) (by decide) (by decide) ⟨by decide, by decide⟩

/-- Accumulation behaviour of the stats fold: each counter counts its status
class, total is never touched by the fold, and totalDays sums the day spans of
APPROVED rows. -/
theorem foldl_statsStep (l : List LeaveRequest) (acc : LeaveStats) :
    (l.foldl statsStep acc).total = acc.total ∧
    (l.foldl statsStep acc).approved =
      acc.approved + l.countP (fun r => decide (r.status = .APPROVED)) ∧
    (l.foldl statsStep acc).pending =
      acc.pending + l.countP (fun r => decide (r.status = .PENDING) ||
        decide (r.status = .PENDING_APPROVAL)) ∧
    (l.foldl statsStep acc).rejected =
      acc.rejected + l.countP (fun r => decide (r.status = .REJECTED)) ∧
    (l.foldl statsStep acc).totalDays =
      acc.totalDays +
        ((l.filter (fun r => decide (r.status = .APPROVED))).map
          statsDays).sum := by
  induction l generalizing acc with
  | nil => simp
  | cons a l ih =>
    obtain ⟨ih1, ih2, ih3, ih4, ih5⟩ := ih (statsStep acc a)
    rw [List.foldl_cons, ih1, ih2, ih3, ih4, ih5]
    cases ha : a.status <;>
      simp [statsStep, ha, List.countP_cons, List.filter_cons] <;>
      omega

/-- Claim C7, amended: getEmployeeStats aggregates over the employee's
requests whose createdAt lies in the inclusive window
[startOfYear, endOfYear], where the source computes endOfYear as
new Date(year, 11, 31) — the midnight instant that begins Dec 31, so requests
created later on Dec 31, though inside the calendar year, are excluded (see
the counterexample).  Within that window, total counts all requests, approved
and rejected count those statuses, pending counts both PENDING and
PENDING_APPROVAL, and totalDays sums the inclusive day-spans of APPROVED
requests only. -/
theorem stats_aggregation (s : LeaveState) (employeeId : Nat)
    (startOfYear endOfYear : Int) :
    (getEmployeeStats s employeeId startOfYear endOfYear).total =
      (s.requests.filter (statsScope employeeId startOfYear
        endOfYear)).length ∧
    (getEmployeeStats s employeeId startOfYear endOfYear).approved =
      (s.requests.filter (statsScope employeeId startOfYear
        endOfYear)).countP (fun r => decide (r.status = .APPROVED)) ∧
    (getEmployeeStats s employeeId startOfYear endOfYear).pending =
      (s.requests.filter (statsScope employeeId startOfYear
        endOfYear)).countP (fun r => decide (r.status = .PENDING) ||
          decide (r.status = .PENDING_APPROVAL)) ∧
    (getEmployeeStats s employeeId startOfYear endOfYear).rejected =
      (s.requests.filter (statsScope employeeId startOfYear
        endOfYear)).countP (fun r => decide (r.status = .REJECTED)) ∧
    (getEmployeeStats s employeeId startOfYear endOfYear).totalDays =
      (((s.requests.filter (statsScope employeeId startOfYear
        endOfYear)).filter (fun r => decide (r.status = .APPROVED))).map
          statsDays).sum := by
  obtain ⟨h1, h2, h3, h4, h5⟩ := foldl_statsStep
    (s.requests.filter (statsScope employeeId startOfYear endOfYear))
    { total := (s.requests.filter (statsScope employeeId startOfYear
        endOfYear)).length,
      approved := 0, pending := 0, rejected := 0, totalDays := 0 }
  exact ⟨h1, by simpa using h2, by simpa using h3, by simpa using h4,
    by simpa using h5⟩

/-- Claim C7, counterexample: with a year starting at instant 0 whose
following year starts 365 days later, the source's window upper bound
new Date(year, 11, 31) is the instant 364 days in; an APPROVED request created
one hour after midnight on Dec 31 lies within the calendar year yet is counted
in no statistic (total and approved are both 0). -/
theorem stats_window_counterexample :
    createdWithinCalendarYear 0 (365 * MILLISECONDS_IN_DAY)
      { id := 1, employeeId := 1, startDate := 0, endDate := 0,
        status := .APPROVED, idempotencyKey := none, processedAt := none,
        createdAt := 364 * MILLISECONDS_IN_DAY + 3600000 } = true ∧
    (getEmployeeStats
      { requests := [{ id := 1, employeeId := 1, startDate := 0, endDate := 0,
                       status := .APPROVED, idempotencyKey := none,
                       processedAt := none,
                       createdAt := 364 * MILLISECONDS_IN_DAY + 3600000 }],
        nextId := 2, published := [] }
      1 0 (364 * MILLISECONDS_IN_DAY)).total = 0 ∧
    (getEmployeeStats
      { requests := [{ id := 1, employeeId := 1, startDate := 0, endDate := 0,
                       status := .APPROVED, idempotencyKey := none,
                       processedAt := none,
                       createdAt := 364 * MILLISECONDS_IN_DAY + 3600000 }],
        nextId := 2, published := [] }
      1 0 (364 * MILLISECONDS_IN_DAY)).approved = 0 := by
  refine ⟨by decide, ?_, ?_⟩ <;> decide

end Workforce
